import Mathlib

/-
  Shallow embedding of src/montecarlo/montecarlo.py (Die, Game, Analyzer).

  Modelling conventions:
  - pandas DataFrames are modelled by explicit column-label lists plus a list
    of rows; the dice outcomes table (Game.play_data) keeps its column labels
    because an un-played game stores pd.DataFrame() with zero columns.
  - Python exceptions are modelled by an Err value carrying the exception
    class and message; fallible operations return Except Err.
  - Face labels are a type parameter with decidable equality (the Python code
    allows numeric or string faces); weights are Python floats, modelled as
    rationals plus infinities and NaN since only identity of the stored value
    matters to the contracts.
  - random.choices is abstracted by a draw oracle giving, for roll i and die
    position j, the face shown by that die on that roll.
-/

set_option maxRecDepth 8000

deriving instance DecidableEq for Except

namespace MonteCarlo

/-- A raised Python exception: its class together with its message
(apostrophes in the original messages are dropped). -/
inductive Err where
  | typeError (msg : String)
  | valueError (msg : String)
  | indexError (msg : String)
deriving DecidableEq

/-- A Python float value: a finite value (modelled as a rational), one of the
two infinities, or NaN. -/
inductive FloatVal where
  | finite (q : ℚ)
  | inf
  | negInf
  | nan
deriving DecidableEq

/-- A Python value handed to set_weight: an int, a float, or some
non-numeric object (identified by its repr string). -/
inductive PyVal where
  | int (n : Int)
  | float (v : FloatVal)
  | nonNumeric (s : String)
deriving DecidableEq

/-- isinstance(weight, (int, float)) or np.issubdtype(type(weight), np.number):
numeric values convert to the float stored in the Weights column, others do
not. -/
def PyVal.toNumeric : PyVal → Option FloatVal
  | .int n => some (FloatVal.finite n)
  | .float v => some v
  | .nonNumeric _ => none

/-- Die._die_data: a data frame indexed by the faces with one float column
Weights, modelled as the association list of (face, weight) rows. -/
structure Die (α : Type) where
  die_data : List (α × FloatVal)
deriving DecidableEq

/-- The index of the die data frame: the face labels in construction order. -/
def Die.faces {α : Type} (d : Die α) : List α :=
  d.die_data.map Prod.fst

/-- get_die_state returns a copy of the data frame; copying is implicit in a
functional model. -/
def Die.get_die_state {α : Type} (d : Die α) : List (α × FloatVal) :=
  d.die_data

/-- The die built by Die.__init__ from distinct faces: every weight is 1.0
(np.ones_like). -/
def mk_die {α : Type} (faces : List α) : Die α :=
  ⟨faces.map (fun f => (f, FloatVal.finite 1))⟩

/-- Die.__init__: rejects non-distinct faces (len(faces) != len(np.unique(faces)))
with ValueError, else stores weight 1.0 for every face.  The isinstance
ndarray check and the numeric-versus-string index dtype branch are Python
typing details outside the model. -/
def Die.init {α : Type} [DecidableEq α] (faces : List α) : Except Err (Die α) :=
  if faces.Nodup then Except.ok (mk_die faces)
  else Except.error (Err.valueError ("Faces must have distinct values."))

/-- Die.set_weight: IndexError when the face is not in the index, TypeError
when the weight is not numeric, otherwise overwrites the Weights cell of that
face. -/
def Die.set_weight {α : Type} [DecidableEq α] (d : Die α) (face : α) (weight : PyVal) :
    Except Err (Die α) :=
  if face ∈ d.faces then
    match weight.toNumeric with
    | some w =>
        Except.ok ⟨d.die_data.map (fun p => if p.1 = face then (p.1, w) else p)⟩
    | none =>
        Except.error (Err.typeError ("Weight must be a numeric value or castable as numeric."))
  else Except.error (Err.indexError ("Invalid face value."))

/-- A pandas DataFrame of homogeneous cells: column labels plus rows. -/
structure DataFrame (α : Type) where
  cols : List String
  rows : List (List α)
deriving DecidableEq

/-- Column j of the frame as a list (DataFrame[col].tolist(); the Die_i
labels are distinct so label access agrees with positional access). -/
def DataFrame.col {α : Type} (df : DataFrame α) (j : Nat) : List α :=
  df.rows.filterMap (fun r => r.get? j)

/-- A Game: the die list and the stored play_data frame. -/
structure Game (α : Type) where
  dice : List (Die α)
  play_data : DataFrame α
deriving DecidableEq

/-- Python set equality of two face lists: set(a) == set(b). -/
def sameSet {α : Type} [DecidableEq α] (a b : List α) : Bool :=
  a.all (fun x => decide (x ∈ b)) && b.all (fun x => decide (x ∈ a))

/-- Game.__init__: every element of a List (Die α) is a Die, so the
isinstance check always passes; on an empty list, dice[0] raises IndexError;
a die whose face set differs from the first one raises ValueError; otherwise
the game stores the dice and an empty pd.DataFrame() (zero rows, zero
columns). -/
def Game.init {α : Type} [DecidableEq α] (dice : List (Die α)) : Except Err (Game α) :=
  match dice with
  | [] => Except.error (Err.indexError ("list index out of range"))
  | d0 :: _ =>
      if dice.all (fun d => sameSet (d.get_die_state.map Prod.fst) d0.faces) then
        Except.ok ⟨dice, ⟨[], []⟩⟩
      else
        Except.error (Err.valueError ("All dice must have the same faces."))

/-- Game.play: rolls every die once per round (roll i, die position j gives
draw i j), then stores a fresh frame with columns Die_1 .. Die_d. -/
def Game.play {α : Type} (g : Game α) (times : Nat) (draw : Nat → Nat → α) : Game α :=
  let rolls := (List.range times).map (fun i =>
    (List.range g.dice.length).map (fun j => draw i j))
  { g with play_data :=
      ⟨(List.range g.dice.length).map (fun j => "Die_" ++ toString (j + 1)), rolls⟩ }

/-- The narrow reshape built by show_results: for each column in original
order, that column's outcomes tagged with roll numbers 1..n in increasing
order, blocks concatenated (pd.concat). -/
def narrowOf {α : Type} (df : DataFrame α) : List ((Nat × String) × α) :=
  df.cols.enum.flatMap (fun p =>
    (df.col p.1).enum.map (fun q => ((q.1 + 1, p.2), q.2)))

/-- The value returned by show_results: the wide frame or the narrow frame. -/
inductive View (α : Type) where
  | wide (df : DataFrame α)
  | narrow (rows : List ((Nat × String) × α))
deriving DecidableEq

/-- Game.show_results: the wide view is a copy of play_data, the narrow view
is the reshape above, anything else raises ValueError. -/
def Game.show_results {α : Type} (g : Game α) (form : String) : Except Err (View α) :=
  if form = "wide" then Except.ok (View.wide g.play_data)
  else if form = "narrow" then Except.ok (View.narrow (narrowOf g.play_data))
  else Except.error (Err.valueError ("Invalid option for form. Please choose wide or narrow."))

/-- An Analyzer wraps a Game; the isinstance check of Analyzer.__init__
always passes in a typed model. -/
structure Analyzer (α : Type) where
  game : Game α
deriving DecidableEq

/-- all(value == row.iloc[0] for value in row): on an empty row the generator
is exhausted before row.iloc[0] is ever evaluated, so the result is True. -/
def isJackpotRow {α : Type} [DecidableEq α] : List α → Bool
  | [] => true
  | h :: t => (h :: t).all (fun v => decide (v = h))

/-- Analyzer.jackpot: counts the wide-view rows whose cells all equal the
first cell of the row. -/
def Analyzer.jackpot {α : Type} [DecidableEq α] (a : Analyzer α) : Nat :=
  match a.game.show_results ("wide") with
  | Except.ok (View.wide results) =>
      results.rows.foldl (fun c row => if isJackpotRow row then c + 1 else c) 0
  | _ => 0

/-- show_results().melt().value: the cells of the frame stacked column by
column in column order. -/
def meltValues {α : Type} (df : DataFrame α) : List α :=
  (List.range df.cols.length).flatMap (fun j => df.col j)

/-- pandas unique: the distinct values in order of first appearance. -/
def uniqueFirst {α : Type} [DecidableEq α] (l : List α) : List α :=
  l.foldl (fun acc a => if a ∈ acc then acc else acc ++ [a]) []

/-- The face_counts_per_roll result: one column per observed face, one row of
counts per roll. -/
structure CountsTable (α : Type) where
  faces : List α
  rows : List (List Nat)
deriving DecidableEq

/-- Analyzer.face_counts_per_roll: columns are the distinct melted values of
the wide view, and for each roll row the cell under face f is
row.value_counts().get(f, 0), i.e. the number of dice showing f in that
roll. -/
def Analyzer.face_counts_per_roll {α : Type} [DecidableEq α] (a : Analyzer α) : CountsTable α :=
  match a.game.show_results ("wide") with
  | Except.ok (View.wide results) =>
      let faces := uniqueFirst (meltValues results)
      ⟨faces, results.rows.map (fun row => faces.map (fun f => row.count f))⟩
  | _ => ⟨[], []⟩

/-- Insert into an ascending list, used to model the sorted group keys of
pandas groupby. -/
def insertAsc (x : Nat) : List Nat → List Nat
  | [] => [x]
  | y :: ys => if x ≤ y then x :: y :: ys else y :: insertAsc x ys

/-- Sort ascending (groupby sorts its keys). -/
def sortAsc (l : List Nat) : List Nat :=
  l.foldr insertAsc []

/-- groupby(Roll)[Outcome].apply(tuple or list): for each distinct Roll key
in ascending order, the Outcome values of that roll in original narrow-frame
row order, which is die order. -/
def groupOutcomes {α : Type} (nar : List ((Nat × String) × α)) : List (List α) :=
  (sortAsc (uniqueFirst (nar.map (fun e => e.1.1)))).map
    (fun r => (nar.filter (fun e => decide (e.1.1 = r))).map (fun e => e.2))

/-- Stable insertion keeping counts descending (under foldr, the earlier of
two tied entries ends up first). -/
def insertByCountDesc {β : Type} (x : β × Nat) : List (β × Nat) → List (β × Nat)
  | [] => [x]
  | y :: ys => if y.2 ≤ x.2 then x :: y :: ys else y :: insertByCountDesc x ys

/-- Series.value_counts(): the count of each distinct value, rows ordered by
count descending.  pandas leaves the order of tied counts
implementation-defined; the model fixes it as first appearance, and no
statement below depends on the row order. -/
def valueCounts {β : Type} [DecidableEq β] (l : List β) : List (β × Nat) :=
  ((uniqueFirst l).map (fun v => (v, l.count v))).foldr insertByCountDesc []

/-- Analyzer.combo_count: groups the narrow view by Roll, turns each group
into the tuple of its outcomes (in narrow-frame order, i.e. die order — the
code never sorts the tuple), and applies value_counts. -/
def Analyzer.combo_count {α : Type} [DecidableEq α] (a : Analyzer α) : List (List α × Nat) :=
  match a.game.show_results ("narrow") with
  | Except.ok (View.narrow results) => valueCounts (groupOutcomes results)
  | _ => []

/-- Analyzer.permutation_count: same grouping but apply(list).  The values of
the resulting Series are Python lists; Series.value_counts hashes its values
and Python lists are unhashable, so any nonempty series of per-roll lists
raises TypeError (unhashable type: list).  An empty series yields an empty
result without hashing anything. -/
def Analyzer.permutation_count {α : Type} [DecidableEq α] (a : Analyzer α) :
    Except Err (List (List α × Nat)) :=
  match a.game.show_results ("narrow") with
  | Except.ok (View.narrow results) =>
      let groups := groupOutcomes results
      if groups.isEmpty then Except.ok (valueCounts groups)
      else Except.error (Err.typeError ("unhashable type: list"))
  | _ => Except.ok []

/-- The die overwritten by a successful set_weight: the Weights cell of the
given face becomes v, every other row is untouched. -/
def setW {α : Type} [DecidableEq α] (d : Die α) (face : α) (v : FloatVal) : Die α :=
  ⟨d.die_data.map (fun p => if p.1 = face then (p.1, v) else p)⟩

/-- A two-die game over faces 2 and 5, as built by Game.__init__. -/
def comboGame : Game Int :=
  ⟨[mk_die [2, 5], mk_die [2, 5]], ⟨[], []⟩⟩

/-- A draw oracle realizing the two rolls (2, 5) and (5, 2). -/
def drawCombo : Nat → Nat → Int :=
  fun i j => ([[2, 5], [5, 2]].getD i []).getD j 0

/-- A one-die game over faces 1..6, as built by Game.__init__. -/
def oneDieGame : Game Int :=
  ⟨[mk_die [1, 2, 3, 4, 5, 6]], ⟨[], []⟩⟩

section Lemmas

variable {α : Type} [DecidableEq α]

theorem show_results_wide (g : Game α) :
    g.show_results ("wide") = Except.ok (View.wide g.play_data) := rfl

theorem show_results_narrow (g : Game α) :
    g.show_results ("narrow") = Except.ok (View.narrow (narrowOf g.play_data)) := rfl

theorem mem_uniqueFirst_aux (l : List α) (acc : List α) (a : α) :
    (a ∈ l.foldl (fun acc x => if x ∈ acc then acc else acc ++ [x]) acc)
      ↔ a ∈ acc ∨ a ∈ l := by
  induction l generalizing acc with
  | nil => simp
  | cons b t ih =>
      simp only [List.foldl_cons]
      rw [ih]
      by_cases hb : b ∈ acc
      · have hab : a = b → a ∈ acc := fun h => h ▸ hb
        simp only [if_pos hb, List.mem_cons]
        tauto
      · simp only [if_neg hb, List.mem_append, List.mem_singleton, List.mem_cons]
        tauto

theorem mem_uniqueFirst (l : List α) (a : α) : a ∈ uniqueFirst l ↔ a ∈ l := by
  unfold uniqueFirst
  rw [mem_uniqueFirst_aux]
  exact or_iff_right (List.not_mem_nil a)

theorem nodup_uniqueFirst_aux (l : List α) (acc : List α) (h : acc.Nodup) :
    (l.foldl (fun acc x => if x ∈ acc then acc else acc ++ [x]) acc).Nodup := by
  induction l generalizing acc with
  | nil => simpa
  | cons b t ih =>
      simp only [List.foldl_cons]
      apply ih
      by_cases hb : b ∈ acc
      · simpa [hb]
      · rw [if_neg hb]
        simp [List.nodup_append, h, hb]

theorem nodup_uniqueFirst (l : List α) : (uniqueFirst l).Nodup :=
  nodup_uniqueFirst_aux l [] List.nodup_nil

theorem isJackpotRow_iff (row : List α) :
    isJackpotRow row = row.all (fun v => decide (row.head? = some v)) := by
  cases row with
  | nil => rfl
  | cons h t =>
      rw [Bool.eq_iff_iff]
      simp only [isJackpotRow, List.all_eq_true, decide_eq_true_eq, List.head?_cons,
        Option.some.injEq]
      constructor
      · intro hall v hv
        exact (hall v hv).symm
      · intro hall v hv
        exact (hall v hv).symm

theorem jackpot_foldl (l : List (List α)) (n : Nat) :
    l.foldl (fun c row => if isJackpotRow row then c + 1 else c) n
      = n + (l.filter isJackpotRow).length := by
  induction l generalizing n with
  | nil => simp
  | cons r t ih =>
      by_cases hr : isJackpotRow r <;>
        simp [hr, ih, List.filter_cons] <;> omega

theorem jackpot_eq_filter (a : Analyzer α) :
    a.jackpot = (a.game.play_data.rows.filter isJackpotRow).length := by
  simp only [Analyzer.jackpot, show_results_wide]
  simpa using jackpot_foldl a.game.play_data.rows 0

theorem filterMap_eq_map_of_some {β γ : Type} (f : β → Option γ) (g : β → γ) (l : List β)
    (h : ∀ x ∈ l, f x = some (g x)) : l.filterMap f = l.map g := by
  induction l with
  | nil => rfl
  | cons b t ih =>
      simp [List.filterMap_cons, h b (by simp),
        ih (fun x hx => h x (by simp [hx]))]

theorem col_play (g : Game α) (times : Nat) (draw : Nat → Nat → α) (j : Nat)
    (hj : j < g.dice.length) :
    (g.play times draw).play_data.col j = (List.range times).map (fun i => draw i j) := by
  unfold Game.play DataFrame.col
  simp only [List.filterMap_map]
  apply filterMap_eq_map_of_some
  intro i _
  simp only [Function.comp_apply]
  rw [List.get?_map, List.get?_range hj]
  rfl

theorem zip_self {β : Type} (l : List β) : l.zip l = l.map (fun a => (a, a)) := by
  induction l <;> simp [*]

theorem enum_range (n : Nat) :
    (List.range n).enum = (List.range n).map (fun i => (i, i)) := by
  rw [List.enum_eq_zip_range]
  simp [zip_self]

theorem length_flatMap_const {β γ : Type} (l : List β) (f : β → List γ) (k : Nat)
    (h : ∀ x ∈ l, (f x).length = k) : (l.flatMap f).length = l.length * k := by
  induction l with
  | nil => simp
  | cons b t ih =>
      simp only [List.flatMap_cons, List.length_append, List.length_cons,
        h b (by simp), ih (fun x hx => h x (by simp [hx])), Nat.succ_mul]
      omega

theorem flatMap_congr {β γ : Type} (l : List β) (f g : β → List γ)
    (h : ∀ x ∈ l, f x = g x) : l.flatMap f = l.flatMap g := by
  induction l with
  | nil => rfl
  | cons b t ih =>
      simp [List.flatMap_cons, h b (by simp), ih (fun x hx => h x (by simp [hx]))]

theorem fst_lt_of_mem_enum {β : Type} (l : List β) (p : Nat × β) (h : p ∈ l.enum) :
    p.1 < l.length := by
  rw [List.enum_eq_zip_range] at h
  have := (List.of_mem_zip h).1
  simpa [List.mem_range] using this

theorem face_counts_eq (a : Analyzer α) :
    a.face_counts_per_roll
      = ⟨uniqueFirst (meltValues a.game.play_data),
         a.game.play_data.rows.map (fun row =>
           (uniqueFirst (meltValues a.game.play_data)).map (fun f => row.count f))⟩ := by
  simp only [Analyzer.face_counts_per_roll, show_results_wide]

theorem mem_meltValues (df : DataFrame α) (f : α)
    (hrect : ∀ row ∈ df.rows, row.length = df.cols.length) :
    f ∈ meltValues df ↔ ∃ row ∈ df.rows, f ∈ row := by
  unfold meltValues DataFrame.col
  simp only [List.mem_flatMap, List.mem_range, List.mem_filterMap]
  constructor
  · rintro ⟨j, _, row, hrow, hget⟩
    exact ⟨row, hrow, List.get?_mem hget⟩
  · rintro ⟨row, hrow, hf⟩
    obtain ⟨n, hn⟩ := List.get?_of_mem hf
    have hlt : n < row.length := (List.get?_eq_some.mp hn).1
    exact ⟨n, by rw [← hrect row hrow]; exact hlt, row, hrow, hn⟩

theorem lookup_setW (l : List (α × FloatVal)) (face : α) (v : FloatVal)
    (h : face ∈ l.map Prod.fst) :
    (l.map (fun p => if p.1 = face then (p.1, v) else p)).lookup face = some v := by
  induction l with
  | nil => simp at h
  | cons p t ih =>
      obtain ⟨k, b⟩ := p
      by_cases hp : k = face
      · simp only [List.map_cons, if_pos hp]
        simp [List.lookup_cons, hp]
      · have hf : face ∈ t.map Prod.fst := by
          rcases (by simpa using h : face = k ∨ face ∈ t.map Prod.fst) with h1 | h1
          · exact absurd h1.symm hp
          · exact h1
        simp only [List.map_cons, if_neg hp]
        simpa [List.lookup_cons, beq_false_of_ne (fun he => hp he.symm : face ≠ k)]
          using ih hf

theorem setW_faces (d : Die α) (face : α) (v : FloatVal) :
    (setW d face v).faces = d.faces := by
  unfold setW Die.faces
  simp only [List.map_map]
  apply List.map_congr_left
  intro p _
  by_cases hp : p.1 = face <;> simp [hp]

theorem setW_mem_of_ne (d : Die α) (face : α) (v : FloatVal) (p : α × FloatVal)
    (hp : p ∈ d.die_data) (hne : p.1 ≠ face) : p ∈ (setW d face v).die_data := by
  unfold setW
  exact List.mem_map.mpr ⟨p, hp, by simp [hne]⟩

theorem all_sameSet_iff (ds : List (Die α)) (d0 : Die α) :
    (ds.all (fun d => sameSet (d.get_die_state.map Prod.fst) d0.faces) = true)
      ↔ ∀ d ∈ ds, (∀ x ∈ d.faces, x ∈ d0.faces) ∧ (∀ x ∈ d0.faces, x ∈ d.faces) := by
  simp [sameSet, Die.get_die_state, Die.faces, List.all_eq_true]

end Lemmas

section Claims

variable {α : Type} [DecidableEq α]

/-- Claim C1: combo_count was claimed to key each roll by the sorted
(order-independent) multiset of its faces, so that the two rolls (2, 5) and
(5, 2) of a two-die game count as one combination of count 2.  The code
applies tuple to the per-roll outcomes without sorting, so on the game whose
wide rows are [[2, 5], [5, 2]] it returns the two die-order tuples with count
1 each instead of a single combination with count 2. -/
theorem combo_count_counts_permutations_separately :
    Game.init [mk_die [2, 5], mk_die [2, 5]] = Except.ok comboGame
    ∧ (comboGame.play 2 drawCombo).play_data.rows = [[2, 5], [5, 2]]
    ∧ Analyzer.combo_count ⟨comboGame.play 2 drawCombo⟩ = [([2, 5], 1), ([5, 2], 1)]
    ∧ Analyzer.combo_count ⟨comboGame.play 2 drawCombo⟩ ≠ [([2, 5], 2)] := by
  decide

/-- Claim C2: permutation_count was claimed to return the ordered per-die
tuples of each roll with counts summing to the number of rolls.  The code
collects each roll into a Python list and calls Series.value_counts, which
hashes its values; lists are unhashable, so the call raises TypeError on any
game with at least one roll, shown here on the same two-roll game. -/
theorem permutation_count_raises_type_error :
    (comboGame.play 2 drawCombo).play_data.rows = [[2, 5], [5, 2]]
    ∧ Analyzer.permutation_count ⟨comboGame.play 2 drawCombo⟩
        = Except.error (Err.typeError ("unhashable type: list")) := by
  decide

/-- Claim C3 (counterexample): the claim says set_weight must fail for any
weight that is not a finite non-negative number; the code accepts negative,
NaN and infinite weights and stores them. -/
theorem set_weight_accepts_bad_weights :
    Die.set_weight (mk_die [1, 2, 3]) 1 (PyVal.float (FloatVal.finite (-1)))
      = Except.ok ⟨[(1, FloatVal.finite (-1)), (2, FloatVal.finite 1), (3, FloatVal.finite 1)]⟩
    ∧ Die.set_weight (mk_die [1, 2, 3]) 2 (PyVal.float FloatVal.nan)
      = Except.ok ⟨[(1, FloatVal.finite 1), (2, FloatVal.nan), (3, FloatVal.finite 1)]⟩
    ∧ Die.set_weight (mk_die [1, 2, 3]) 3 (PyVal.float FloatVal.inf)
      = Except.ok ⟨[(1, FloatVal.finite 1), (2, FloatVal.finite 1), (3, FloatVal.inf)]⟩ := by
  decide

/-- Claim C3 (amended): for a face of the die, set_weight fails with
TypeError exactly when the weight is not numeric; every numeric weight —
including negative, infinite or NaN ones — is accepted, and only on success
is the stored weight of that face overwritten, all other rows unchanged. -/
theorem set_weight_spec (d : Die α) (face : α) (w : PyVal) (hf : face ∈ d.faces) :
    (w.toNumeric = none →
      d.set_weight face w
        = Except.error (Err.typeError ("Weight must be a numeric value or castable as numeric.")))
    ∧ (∀ v, w.toNumeric = some v → d.set_weight face w = Except.ok (setW d face v))
    ∧ (∀ v, w.toNumeric = some v →
        (setW d face v).faces = d.faces
        ∧ (setW d face v).die_data.lookup face = some v
        ∧ ∀ p ∈ d.die_data, p.1 ≠ face → p ∈ (setW d face v).die_data) := by
  refine ⟨?_, ?_, ?_⟩
  · intro hn
    unfold Die.set_weight
    rw [if_pos hf, hn]
  · intro v hv
    unfold Die.set_weight
    rw [if_pos hf, hv]
    rfl
  · intro v _
    exact ⟨setW_faces d face v, lookup_setW d.die_data face v hf,
      fun p hp hne => setW_mem_of_ne d face v p hp hne⟩

/-- Claim C3 (witness): the amended statement applied to the die with faces
1, 2, 3: the negative weight -1 is numeric, so it is accepted and stored. -/
theorem set_weight_spec_witness :
    (1 : Int) ∈ (mk_die [1, 2, 3]).faces
    ∧ Die.set_weight (mk_die [1, 2, 3]) 1 (PyVal.float (FloatVal.finite (-1)))
        = Except.ok (setW (mk_die [1, 2, 3]) 1 (FloatVal.finite (-1)))
    ∧ (setW (mk_die [1, 2, 3]) 1 (FloatVal.finite (-1))).die_data.lookup 1
        = some (FloatVal.finite (-1)) :=
  ⟨by decide,
   (set_weight_spec (mk_die [1, 2, 3]) 1 (PyVal.float (FloatVal.finite (-1)))
      (by decide)).2.1 _ rfl,
   ((set_weight_spec (mk_die [1, 2, 3]) 1 (PyVal.float (FloatVal.finite (-1)))
      (by decide)).2.2 _ rfl).2.1⟩

/-- Claim C4 (counterexample): on the empty die list the constructor raises
IndexError from accessing the first die, which is a different error from the
mismatched-faces ValueError, so the empty case does not fail with the
EmptyOrMismatchedDice error. -/
theorem game_init_empty_counterexample :
    Game.init ([] : List (Die Int)) = Except.error (Err.indexError ("list index out of range"))
    ∧ Err.indexError ("list index out of range")
        ≠ Err.valueError ("All dice must have the same faces.") := by
  decide

/-- Claim C4 (amended): construction fails on the empty list, but with an
IndexError from dice[0] rather than the mismatched-dice ValueError; when some
die face set differs from the first die face set as an unordered set it fails
with that ValueError, and when all face sets agree it succeeds with an empty
play_data frame. -/
theorem game_init_spec (ds : List (Die α)) :
    (ds = [] → Game.init ds = Except.error (Err.indexError ("list index out of range")))
    ∧ (∀ d0 tl, ds = d0 :: tl →
        ((∃ d ∈ ds, ¬ ((∀ x ∈ d.faces, x ∈ d0.faces) ∧ (∀ x ∈ d0.faces, x ∈ d.faces))) →
            Game.init ds = Except.error (Err.valueError ("All dice must have the same faces.")))
        ∧ ((∀ d ∈ ds, (∀ x ∈ d.faces, x ∈ d0.faces) ∧ (∀ x ∈ d0.faces, x ∈ d.faces)) →
            Game.init ds = Except.ok ⟨ds, ⟨[], []⟩⟩)) := by
  refine ⟨?_, ?_⟩
  · rintro rfl
    rfl
  · rintro d0 tl rfl
    constructor
    · intro hbad
      have hna : ¬ ((d0 :: tl).all
          (fun d => sameSet (d.get_die_state.map Prod.fst) d0.faces) = true) := by
        rw [all_sameSet_iff]
        intro hall
        obtain ⟨d, hd, hnd⟩ := hbad
        exact hnd (hall d hd)
      simp only [Game.init]
      rw [if_neg hna]
    · intro hgood
      have hc := (all_sameSet_iff (d0 :: tl) d0).mpr hgood
      simp only [Game.init]
      rw [if_pos hc]

/-- Claim C4 (witness): two dice with face sets [1, 2, 3] and [1, 2, 4]
mismatch, so construction fails with the mismatched-dice ValueError. -/
theorem game_init_spec_witness :
    Game.init [mk_die ([1, 2, 3] : List Int), mk_die [1, 2, 4]]
      = Except.error (Err.valueError ("All dice must have the same faces.")) :=
  (((game_init_spec [mk_die [1, 2, 3], mk_die [1, 2, 4]]).2 (mk_die [1, 2, 3])
      [mk_die [1, 2, 4]] rfl).1) (by decide)

/-- Claim C5: jackpot equals the number of wide-view rows whose every cell
equals the first cell of the row; it is therefore at most the number of
rolls, and on a one-die game it equals the number of rolls. -/
theorem jackpot_spec (a : Analyzer α) (g : Game α) (times : Nat) (draw : Nat → Nat → α) :
    a.jackpot
      = (a.game.play_data.rows.filter
          (fun row => row.all (fun v => decide (row.head? = some v)))).length
    ∧ a.jackpot ≤ a.game.play_data.rows.length
    ∧ (g.dice.length = 1 → Analyzer.jackpot ⟨g.play times draw⟩ = times) := by
  refine ⟨?_, ?_, ?_⟩
  · rw [jackpot_eq_filter]
    exact congrArg List.length (List.filter_congr (fun row _ => isJackpotRow_iff row))
  · rw [jackpot_eq_filter]
    exact List.length_filter_le _ _
  · intro h1
    rw [jackpot_eq_filter]
    show ((g.play times draw).play_data.rows.filter isJackpotRow).length = times
    have hrows : (g.play times draw).play_data.rows
        = (List.range times).map (fun i =>
            (List.range g.dice.length).map (fun j => draw i j)) := rfl
    rw [hrows, h1]
    have hall : ∀ row ∈ (List.range times).map (fun i =>
        (List.range 1).map (fun j => draw i j)), isJackpotRow row = true := by
      intro row hrow
      obtain ⟨i, _, rfl⟩ := List.mem_map.mp hrow
      have : List.range 1 = [0] := by decide
      rw [this]
      simp [isJackpotRow]
    rw [List.filter_eq_self.mpr hall, List.length_map, List.length_range]

/-- Claim C5 (witness): a one-die game played three times has jackpot count
three. -/
theorem jackpot_spec_witness :
    oneDieGame.dice.length = 1
    ∧ Analyzer.jackpot ⟨oneDieGame.play 3 (fun i _ => (i : Int))⟩ = 3 :=
  ⟨by decide,
   (jackpot_spec ⟨oneDieGame⟩ oneDieGame 3 (fun i _ => (i : Int))).2.2 (by decide)⟩

/-- Claim C6: play(times) stores a fresh table of exactly times rows, with
one column per die (also when times = 0) and every row of length equal to
the number of dice, and a second play replaces the table of the first: the
resulting game is the same as playing the original game once. -/
theorem play_spec (g : Game α) (times t2 : Nat) (draw draw2 : Nat → Nat → α) :
    (g.play times draw).play_data.rows.length = times
    ∧ (g.play times draw).play_data.cols.length = g.dice.length
    ∧ (∀ row ∈ (g.play times draw).play_data.rows, row.length = g.dice.length)
    ∧ (g.play times draw).play t2 draw2 = g.play t2 draw2 := by
  refine ⟨by simp [Game.play], by simp [Game.play], ?_, rfl⟩
  intro row hrow
  have : row ∈ (List.range times).map (fun i =>
      (List.range g.dice.length).map (fun j => draw i j)) := hrow
  obtain ⟨i, _, rfl⟩ := List.mem_map.mp this
  simp

/-- Claim C6 (witness): the two-roll play of the two-die game has the row
[2, 5], whose length is the number of dice. -/
theorem play_spec_witness :
    ([2, 5] : List Int) ∈ (comboGame.play 2 drawCombo).play_data.rows
    ∧ ([2, 5] : List Int).length = comboGame.dice.length :=
  ⟨by decide, (play_spec comboGame 2 0 drawCombo drawCombo).2.2.1 [2, 5] (by decide)⟩

/-- Claim C7: after a play, the narrow view is the concatenation, over the
die columns in original order, of that column's outcomes tagged with roll
numbers 1..times in increasing order, and its row count is the wide view's
rows times its columns. -/
theorem narrow_view_spec (g : Game α) (times : Nat) (draw : Nat → Nat → α) :
    (g.play times draw).show_results ("narrow")
      = Except.ok (View.narrow (narrowOf (g.play times draw).play_data))
    ∧ narrowOf (g.play times draw).play_data
      = (g.play times draw).play_data.cols.enum.flatMap (fun p =>
          (List.range times).map (fun i => ((i + 1, p.2), draw i p.1)))
    ∧ (narrowOf (g.play times draw).play_data).length
      = (g.play times draw).play_data.rows.length
          * (g.play times draw).play_data.cols.length := by
  have hcols : (g.play times draw).play_data.cols.length = g.dice.length := by
    simp [Game.play]
  have hblocks : narrowOf (g.play times draw).play_data
      = (g.play times draw).play_data.cols.enum.flatMap (fun p =>
          (List.range times).map (fun i => ((i + 1, p.2), draw i p.1))) := by
    unfold narrowOf
    apply flatMap_congr
    intro p hp
    have hp1 : p.1 < g.dice.length := by
      have := fst_lt_of_mem_enum _ _ hp
      rwa [hcols] at this
    rw [col_play g times draw p.1 hp1]
    rw [List.enum_map, enum_range]
    simp [List.map_map, Function.comp]
  refine ⟨show_results_narrow _, hblocks, ?_⟩
  rw [hblocks]
  rw [length_flatMap_const _ _ times (by intro x _; simp)]
  have hrows : (g.play times draw).play_data.rows.length = times := by
    simp [Game.play]
  rw [List.enum_length, hrows]
  exact Nat.mul_comm _ _

/-- Claim C8: face_counts_per_roll has one count row per roll, one distinct
column per face value observed anywhere in the results, and each cell under
face f is the number of dice showing f in that roll; a face absent from a
roll yields the cell value 0, never a missing value. -/
theorem face_counts_per_roll_spec (a : Analyzer α)
    (hrect : ∀ row ∈ a.game.play_data.rows, row.length = a.game.play_data.cols.length) :
    a.face_counts_per_roll.rows.length = a.game.play_data.rows.length
    ∧ a.face_counts_per_roll.faces.Nodup
    ∧ (∀ f, f ∈ a.face_counts_per_roll.faces ↔ ∃ row ∈ a.game.play_data.rows, f ∈ row)
    ∧ (∀ i row, a.game.play_data.rows.get? i = some row →
        a.face_counts_per_roll.rows.get? i
          = some (a.face_counts_per_roll.faces.map (fun f => row.count f)))
    ∧ (∀ i row k f, a.game.play_data.rows.get? i = some row →
        a.face_counts_per_roll.faces.get? k = some f → f ∉ row →
        (a.face_counts_per_roll.rows.get? i).bind (fun r => r.get? k) = some 0) := by
  rw [face_counts_eq]
  refine ⟨by simp, nodup_uniqueFirst _, ?_, ?_, ?_⟩
  · intro f
    rw [mem_uniqueFirst]
    exact mem_meltValues _ f hrect
  · intro i row hi
    simp only [List.get?_eq_getElem?] at hi ⊢
    simp [List.getElem?_map, hi]
  · intro i row k f hi hk hf
    simp only [List.get?_eq_getElem?] at hi hk ⊢
    simp [List.getElem?_map, hi, hk, List.count_eq_zero_of_not_mem hf]

/-- Claim C8 (witness): on the played two-die game the counts table has one
row per roll and pairwise distinct face columns. -/
theorem face_counts_per_roll_spec_witness :
    (Analyzer.face_counts_per_roll ⟨comboGame.play 2 drawCombo⟩).rows.length
        = (comboGame.play 2 drawCombo).play_data.rows.length
    ∧ (Analyzer.face_counts_per_roll ⟨comboGame.play 2 drawCombo⟩).faces.Nodup :=
  ⟨(face_counts_per_roll_spec ⟨comboGame.play 2 drawCombo⟩ (by decide)).1,
   (face_counts_per_roll_spec ⟨comboGame.play 2 drawCombo⟩ (by decide)).2.1⟩

/-- Claim C9: show_results succeeds on wide and narrow, returning the
corresponding view, and fails with the invalid-format ValueError on every
other form string. -/
theorem show_results_spec (g : Game α) (form : String) :
    (form ≠ "wide" → form ≠ "narrow" →
      g.show_results form
        = Except.error (Err.valueError ("Invalid option for form. Please choose wide or narrow.")))
    ∧ g.show_results ("wide") = Except.ok (View.wide g.play_data)
    ∧ g.show_results ("narrow") = Except.ok (View.narrow (narrowOf g.play_data)) := by
  refine ⟨?_, show_results_wide g, show_results_narrow g⟩
  intro h1 h2
  unfold Game.show_results
  rw [if_neg h1, if_neg h2]

/-- Claim C9 (witness): the form string tall is neither wide nor narrow and
raises the invalid-format ValueError. -/
theorem show_results_spec_witness :
    Game.show_results oneDieGame ("tall")
      = Except.error (Err.valueError ("Invalid option for form. Please choose wide or narrow.")) :=
  (show_results_spec oneDieGame "tall").1 (by decide) (by decide)

/-- Claim C10: a freshly constructed game, on which play was never called,
returns the empty wide view and the empty narrow view without error, and its
jackpot count is 0. -/
theorem fresh_game_spec (ds : List (Die α)) (g : Game α) (h : Game.init ds = Except.ok g) :
    g.show_results ("wide") = Except.ok (View.wide ⟨[], []⟩)
    ∧ g.show_results ("narrow") = Except.ok (View.narrow [])
    ∧ Analyzer.jackpot ⟨g⟩ = 0 := by
  cases ds with
  | nil => simp [Game.init] at h
  | cons d0 tl =>
      simp only [Game.init] at h
      by_cases hc : (d0 :: tl).all
          (fun d => sameSet (d.get_die_state.map Prod.fst) d0.faces) = true
      · rw [if_pos hc] at h
        injection h with h2
        subst h2
        exact ⟨rfl, rfl, rfl⟩
      · rw [if_neg hc] at h
        exact Except.noConfusion h

/-- Claim C10 (witness): a fresh one-die game built by the constructor has
empty views and jackpot 0. -/
theorem fresh_game_spec_witness :
    (⟨[mk_die [1]], ⟨[], []⟩⟩ : Game Int).show_results ("wide")
        = Except.ok (View.wide ⟨[], []⟩)
    ∧ (⟨[mk_die [1]], ⟨[], []⟩⟩ : Game Int).show_results ("narrow")
        = Except.ok (View.narrow [])
    ∧ Analyzer.jackpot (⟨⟨[mk_die [1]], ⟨[], []⟩⟩⟩ : Analyzer Int) = 0 :=
  fresh_game_spec [mk_die [1]] _ (by decide)

end Claims

end MonteCarlo
